import Mathlib

/-!
Verification development for the LaTeX compilation server
(`src/server/latex_server.py`).

The server code is shallowly embedded: the on-disk workspace becomes an
association list from relative path to file content, the external
typesetting toolchain becomes an oracle mapping an invocation index, a
command and the current filesystem to a process result, and each Flask
handler becomes a pure function from a typed request (the parsed JSON
body) to a typed response.  Every outcome additionally records, as ghost
observations, the exact sequence of subprocess invocations that took
place, the captured standard output of Pass 2 (the value the rerun check
inspects), and the engine string that was selected.

Host filesystem contents outside the per-request workspace are modelled
as absent, and string operations are re-implemented over `List Char` so
that every definition is kernel-executable on concrete inputs.
-/

/-- Boolean test that `pat` occurs at the head of `s` (character lists). -/
def listIsPrefOf : List Char → List Char → Bool
  | [], _ => true
  | _ :: _, [] => false
  | a :: as, b :: bs => a = b && listIsPrefOf as bs

/-- Boolean substring test over character lists: `pat` occurs somewhere in `s`. -/
def listHasSub (pat : List Char) : List Char → Bool
  | [] => pat.isEmpty
  | b :: bs => listIsPrefOf pat (b :: bs) || listHasSub pat bs

/-- Model of Python's `pat in s` substring test. -/
def strContains (s pat : String) : Bool := listHasSub pat.data s.data

/-- Model of `s.startswith(pat)`. -/
def strStartsWith (s pat : String) : Bool := listIsPrefOf pat.data s.data

/-- Model of `s.endswith(pat)` (used for the `*.tex` glob). -/
def strEndsWith (s pat : String) : Bool := listIsPrefOf pat.data.reverse s.data.reverse

/-- POSIX absolute-path test, modelling `pathlib.Path.is_absolute()`. -/
def isAbsolutePath (p : String) : Bool := strStartsWith p "/"

/-- Characters of `cs` up to (excluding) the first occurrence of `c`. -/
def takeUntilChar (c : Char) : List Char → List Char
  | [] => []
  | a :: as => if a = c then [] else a :: takeUntilChar c as

/-- Final path component, modelling `pathlib.Path(p).name`. -/
def lastComponent (p : String) : List Char := (takeUntilChar '/' p.data.reverse).reverse

/-- Drop characters of a reversed name up to and including the first `'.'`. -/
def dropThroughDot : List Char → Option (List Char)
  | [] => none
  | a :: as => if a = '.' then some as else dropThroughDot as

/-- Model of `pathlib.Path(p).stem`: the final component without its last
extension (a leading-dot-only name keeps its dot, as in Python). -/
def pathStem (p : String) : String :=
  let name := lastComponent p
  match dropThroughDot name.reverse with
  | some rest => if rest.isEmpty then String.mk name else String.mk rest.reverse
  | none => String.mk name

/-- A workspace directory tree, flattened to relative path ↦ file content.
Enumeration order of `glob` is modelled as insertion order. -/
abbrev FS := List (String × String)

/-- Content of path `p` in the workspace, `none` when the file is absent. -/
def fsGet : FS → String → Option String
  | [], _ => none
  | (q, c) :: rest, p => if q = p then some c else fsGet rest p

/-- Write (create or overwrite) path `p` with content `c`, keeping the
position of an existing entry and appending a fresh entry at the end. -/
def fsWrite : FS → String → String → FS
  | [], p, c => [(p, c)]
  | (q, d) :: rest, p, c => if q = p then (p, c) :: rest else (q, d) :: fsWrite rest p c

/-- The document-class declaration marker searched for in `.tex` files
(line 524 of the source: `'\documentclass' in content`). -/
def docClassMarker : String := "\\documentclass"

/-- Cross-reference rerun marker (line 613 of the source). -/
def rerunMarkerA : String := "Rerun to get cross-references right"

/-- Undefined-references marker (line 613 of the source). -/
def rerunMarkerB : String := "There were undefined references"

/-- The rerun condition of line 613, applied to Pass 2's captured stdout. -/
def rerunRequested (s : String) : Bool :=
  strContains s rerunMarkerA || strContains s rerunMarkerB

/-- The files matched by `work_dir.glob('**/*.tex')` (line 519), in tree
enumeration order (modelled as workspace insertion order). -/
def texFiles (fs : FS) : List String :=
  (fs.filter fun e => strEndsWith e.1 ".tex").map Prod.fst

/-- Main-file resolution, lines 516-536 of the source: keep the hinted
path when it exists; otherwise the first `.tex` file whose content
contains the document-class marker; otherwise the first `.tex` file at
all; otherwise failure. -/
def resolveMainFile (fs : FS) (hint : String) : Option String :=
  if (fsGet fs hint).isSome then some hint
  else
    let texs := texFiles fs
    match texs.find? (fun p => strContains ((fsGet fs p).getD "") docClassMarker) with
    | some p => some p
    | none => texs.head?

/-- Absolute path of the per-request temporary directory
(`tempfile.TemporaryDirectory()` always yields an absolute path). -/
def WORK_DIR : String := "/tmp/latexwork"

/-- Path joining as in `pathlib`: an absolute right operand replaces the left. -/
def joinPath (dir p : String) : String :=
  if isAbsolutePath p then p else dir ++ "/" ++ p

/-- The value of the `COMPILE_TIMEOUT` configuration (default 300 s). -/
def COMPILE_TIMEOUT : Nat := 300

/-- One subprocess invocation: argument vector, working directory, timeout. -/
structure Cmd where
  argv : List String
  cwd : String
  timeoutSec : Nat
deriving DecidableEq, Repr

/-- Result of one subprocess invocation as the server observes it:
normal completion (return code, captured stdout/stderr, filesystem after
the process ran), `subprocess.TimeoutExpired`, or `FileNotFoundError`
(the executable is not resolvable on the host). -/
inductive RunResult where
  | completed (returncode : Int) (stdout stderr : String) (fsAfter : FS)
  | timedOut
  | execNotFound
deriving DecidableEq, Repr

/-- The external toolchain as an oracle: invocation index (number of
prior subprocess calls in this request), command, filesystem before. -/
abbrev Toolchain := Nat → Cmd → FS → RunResult

/-- Which call site of `compile_real_logic` performed an invocation. -/
inductive PassLabel where
  | pass1
  | bibliography
  | pass2
  | pass3
deriving DecidableEq, Repr

/-- Ghost record of one subprocess invocation made during a build. -/
structure TraceEntry where
  label : PassLabel
  cmd : Cmd
  outcome : RunResult
deriving DecidableEq, Repr

/-- The engine pass call sites (Pass 1 / Pass 2 / Pass 3). -/
def isEngineLabel : PassLabel → Bool
  | .pass1 => true
  | .pass2 => true
  | .pass3 => true
  | .bibliography => false

/-- Did the invocation complete (as opposed to timing out / failing to launch)? -/
def isCompletedRun : RunResult → Bool
  | .completed _ _ _ _ => true
  | _ => false

/-- HTTP-level response of `compile_real_logic`, constructor per exit path:
`pdfSuccess` = 200 `send_file`, `compilationFailed` = 400 with logs,
`mainFileNotFound` = 400, `timeoutPass1` = 408, `internalError` = 500
(the outer `except Exception` handler). -/
inductive ApiResult where
  | pdfSuccess (content : String)
  | compilationFailed (msg logs : String)
  | mainFileNotFound (msg : String)
  | timeoutPass1 (msg : String)
  | internalError (msg : String)
deriving DecidableEq, Repr

/-- Message of the 408 response at line 568 of the source. -/
def pass1TimeoutMsg : String := "Compilation timed out (Pass 1)"

/-- Model message of the 500 response when an engine executable is missing. -/
def launchFailMsg : String := "Internal Server Error: engine executable not found"

/-- Model message of the 500 response when an uncaught pass timeout escapes
to the outer handler. -/
def timeoutInternalMsg : String := "Internal Server Error: pass timed out"

/-- Message of the 400 response at line 637 of the source. -/
def noPdfMsg : String := "Compilation failed (No PDF generated)"

/-- Message of the 400 response at line 536 of the source. -/
def mainNotFoundMsg (m : String) : String :=
  "Main file " ++ m ++ " not found and auto-detection failed."

/-- Outcome of one call of `compile_real_logic`: the HTTP response plus
ghost observations (subprocess trace, accumulated log, workspace when the
response was produced, Pass 2's captured stdout, selected engine). -/
structure CompileOutcome where
  response : ApiResult
  trace : List TraceEntry
  log : String
  finalFs : FS
  pass2Stdout : Option String
  engineUsed : String
deriving DecidableEq, Repr

/-- Parsed JSON body of a compile request (lines 475-481 of the source). -/
structure CompileRequest where
  files : List (String × String)
  binaryFiles : List (String × String)
  mainFile : Option String
  engine : Option String
deriving DecidableEq, Repr

/-- Pass-boundary log block: dashes, the pass name, then stdout and stderr
each followed by a newline, as in the source f-string. -/
def passLog (name out err : String) : String :=
  "--- " ++ name ++ " ---\n" ++ out ++ "\n" ++ err ++ "\n"

/-- The engine command of lines 542-548 of the source. -/
def mkBaseCmd (engine m : String) : Cmd :=
  ⟨[engine, "-interaction=nonstopmode", "-file-line-error",
    "-output-directory", WORK_DIR, m], WORK_DIR, COMPILE_TIMEOUT⟩

/-- The bibliography command of line 584 (`['bibtex', stem]`, timeout 30). -/
def mkBibCmd (m : String) : Cmd := ⟨["bibtex", pathStem m], WORK_DIR, 30⟩

/-- BibCheck of lines 570-578: the `.aux` file of the main file's stem
exists and mentions `\citation` or `\bibdata`. -/
def needsBib (m : String) (fs : FS) : Bool :=
  match fsGet fs (pathStem m ++ ".aux") with
  | some aux => strContains aux "\\citation" || strContains aux "\\bibdata"
  | none => false

/-- Artifact name of line 626: main-file stem plus the fixed `.pdf` extension. -/
def artifactName (m : String) : String := pathStem m ++ ".pdf"

/-- Final artifact check of lines 625-637: success exactly when the
artifact is present on disk, otherwise a 400 with the full log attached.
Process exit codes are not consulted. -/
def finishBuild (eng m : String) (fs : FS) (log : String)
    (tr : List TraceEntry) (p2 : Option String) : CompileOutcome :=
  match fsGet fs (artifactName m) with
  | some c => ⟨.pdfSuccess c, tr, log, fs, p2, eng⟩
  | none => ⟨.compilationFailed noPdfMsg log, tr, log, fs, p2, eng⟩

/-- Pass 2, the rerun check and Pass 3 (lines 601-623).  A timeout or a
launch failure here is not caught at the call site and surfaces as the
outer handler's 500 response. -/
def pass2AndOn (tc : Toolchain) (idx : Nat) (bc : Cmd) (eng m : String)
    (fs : FS) (log : String) (tr : List TraceEntry) : CompileOutcome :=
  match tc idx bc fs with
  | .timedOut =>
      ⟨.internalError timeoutInternalMsg, tr ++ [⟨.pass2, bc, .timedOut⟩], log, fs, none, eng⟩
  | .execNotFound =>
      ⟨.internalError launchFailMsg, tr ++ [⟨.pass2, bc, .execNotFound⟩], log, fs, none, eng⟩
  | .completed rc2 out2 err2 fsC =>
      let log2 := log ++ passLog "Pass 2" out2 err2
      let tr2 := tr ++ [⟨.pass2, bc, .completed rc2 out2 err2 fsC⟩]
      if rerunRequested out2 then
        match tc (idx + 1) bc fsC with
        | .timedOut =>
            ⟨.internalError timeoutInternalMsg, tr2 ++ [⟨.pass3, bc, .timedOut⟩],
              log2, fsC, some out2, eng⟩
        | .execNotFound =>
            ⟨.internalError launchFailMsg, tr2 ++ [⟨.pass3, bc, .execNotFound⟩],
              log2, fsC, some out2, eng⟩
        | .completed rc3 out3 err3 fsD =>
            finishBuild eng m fsD (log2 ++ passLog "Pass 3" out3 err3)
              (tr2 ++ [⟨.pass3, bc, .completed rc3 out3 err3 fsD⟩]) (some out2)
      else
        finishBuild eng m fsC log2 tr2 (some out2)

/-- BibCheck and the optional bibliography pass (lines 570-595), then
Pass 2 and on.  Every bibliography failure mode — missing executable,
timeout, any other error — is caught, logged and the pipeline continues. -/
def afterPass1 (tc : Toolchain) (bc : Cmd) (eng m : String) (fsA : FS)
    (log1 : String) (e1 : TraceEntry) : CompileOutcome :=
  if needsBib m fsA then
    match tc 1 (mkBibCmd m) fsA with
    | .completed rcb outb errb fsB =>
        pass2AndOn tc 2 bc eng m fsB (log1 ++ passLog "BibTeX" outb errb)
          [e1, ⟨.bibliography, mkBibCmd m, .completed rcb outb errb fsB⟩]
    | .execNotFound =>
        pass2AndOn tc 2 bc eng m fsA (log1 ++ "\n[WARN] BibTeX not found/installed.\n")
          [e1, ⟨.bibliography, mkBibCmd m, .execNotFound⟩]
    | .timedOut =>
        pass2AndOn tc 2 bc eng m fsA (log1 ++ "\n[WARN] BibTeX error: timeout\n")
          [e1, ⟨.bibliography, mkBibCmd m, .timedOut⟩]
  else
    pass2AndOn tc 1 bc eng m fsA log1 [e1]

/-- The compilation pipeline of lines 538-637, from Pass 1 on, applied to
a materialized workspace `fs` with resolved main file `m` and the engine
string `eng` taken verbatim from the request.  Pass 1's timeout is the
only one caught at its call site (lines 557-568, the 408 response). -/
def runPipeline (tc : Toolchain) (eng m : String) (fs : FS) : CompileOutcome :=
  let bc := mkBaseCmd eng m
  match tc 0 bc fs with
  | .timedOut => ⟨.timeoutPass1 pass1TimeoutMsg, [⟨.pass1, bc, .timedOut⟩], "", fs, none, eng⟩
  | .execNotFound => ⟨.internalError launchFailMsg, [⟨.pass1, bc, .execNotFound⟩], "", fs, none, eng⟩
  | .completed rc1 out1 err1 fsA =>
      afterPass1 tc bc eng m fsA (passLog "Pass 1" out1 err1)
        ⟨.pass1, bc, .completed rc1 out1 err1 fsA⟩

/-- File materialization of lines 495-514 of the source, for both the
text and the (already base64-decoded) binary maps.  The guard faithfully
mirrors line 498/506: it tests `(work_dir / filename).is_absolute()` —
the JOINED path, which is always absolute because the temporary work
directory is absolute — so every entry is skipped and nothing is written. -/
def writeUploads (fs : FS) (entries : List (String × String)) : FS :=
  entries.foldl
    (fun acc e => if isAbsolutePath (joinPath WORK_DIR e.1) then acc else fsWrite acc e.1 e.2)
    fs

/-- Workspace contents after the materialization step of a compile request. -/
def initialFs (req : CompileRequest) : FS :=
  writeUploads (writeUploads [] req.files) req.binaryFiles

/-- Embedding of `compile_real_logic` (lines 463-641 of the source), JSON branch:
apply request defaults, materialize the fileset into a fresh temporary
directory, resolve the main file, then run the pipeline. -/
def compile_real_logic (tc : Toolchain) (req : CompileRequest) : CompileOutcome :=
  let hint := req.mainFile.getD "main.tex"
  let eng := req.engine.getD "pdflatex"
  let fs := initialFs req
  match resolveMainFile fs hint with
  | none => ⟨.mainFileNotFound (mainNotFoundMsg hint), [], "", fs, none, eng⟩
  | some m => runPipeline tc eng m fs

/-- Embedding of `consume_credit` (lines 211-240 of the source) in online mode
(`FIREBASE_INITIALIZED`): read the stored credit value (an absent node
counts as the free plan's 10 initial credits), decrement and store when
positive, otherwise refuse without touching the store.  Returns
(success flag, reported balance, stored value afterwards).  The inner
`transaction_deduct` closure of the source is dead code and is not
modelled. -/
def consume_credit (firebaseInit : Bool) (stored : Option Int) :
    Bool × Int × Option Int :=
  if firebaseInit = false then (true, 999999, stored)
  else
    let current := stored.getD 10
    if current > 0 then (true, current - 1, some (current - 1))
    else (false, 0, stored)

/-- Response of the `/api/compile` handler: the 403 `NO_CREDITS` refusal
or the forwarded result of `compile_real_logic`. -/
inductive CompileApiResponse where
  | noCredits
  | compiled (outcome : CompileOutcome)
deriving DecidableEq, Repr

/-- Embedding of `api_compile` (lines 385-401 of the source): consume one credit
first; on refusal answer 403 `NO_CREDITS` without any compilation work,
otherwise forward to `compile_real_logic`.  The credit store is never
touched again after the initial consumption (no refund on failure). -/
def api_compile (firebaseInit : Bool) (stored : Option Int)
    (tc : Toolchain) (req : CompileRequest) :
    CompileApiResponse × Option Int :=
  let r := consume_credit firebaseInit stored
  if r.1 then (.compiled (compile_real_logic tc req), r.2.2)
  else (.noCredits, r.2.2)

/-- Parsed JSON body of a `/api/sync` request (lines 408-411). -/
structure SyncRequest where
  projectId : Option String
  files : List (String × String)
  binaryFiles : List (String × String)
deriving DecidableEq, Repr

/-- Map from project identifier to its persisted workspace tree
(`Synced_Projects/<projectId>` on disk); a present key models an
existing directory. -/
abbrev Workspaces := List (String × FS)

/-- Workspace of project `pid`, `none` when its directory does not exist. -/
def wsGet : Workspaces → String → Option FS
  | [], _ => none
  | (q, fs) :: rest, pid => if q = pid then some fs else wsGet rest pid

/-- Store workspace `fs` under `pid` (create or replace). -/
def wsSet : Workspaces → String → FS → Workspaces
  | [], pid, fs => [(pid, fs)]
  | (q, d) :: rest, pid, fs =>
      if q = pid then (pid, fs) :: rest else (q, d) :: wsSet rest pid fs

/-- The per-entry path check of lines 424 and 436 of the source:
`safe_path.is_absolute() or '..' in str(safe_path)`. -/
def syncPathOk (p : String) : Bool :=
  !isAbsolutePath p && !strContains p ".."

/-- Response of the `/api/sync` handler; the happy path always answers
`{'success': True, 'message': 'Synced N files to ...'}`. -/
inductive SyncResponse where
  | ok (msg : String)
  | errorResp (msg : String)
deriving DecidableEq, Repr

/-- Success message of line 453 (the absolute target path is modelled by
its relative form). -/
def syncOkMsg (n : Nat) (pid : String) : String :=
  "Synced " ++ toString n ++ " files to Synced_Projects/" ++ pid

/-- One saving loop of `api_sync_files`: entries whose path fails the
check are silently skipped (`continue`); the rest are written and counted. -/
def syncWriteLoop (start : FS × Nat) (entries : List (String × String)) : FS × Nat :=
  entries.foldl
    (fun acc e => if syncPathOk e.1 then (fsWrite acc.1 e.1 e.2, acc.2 + 1) else acc)
    start

/-- Embedding of `api_sync_files` (lines 403-457 of the source): `mkdir(parents=True,
exist_ok=True)` materializes the project workspace whether or not it
already exists, then the text and binary maps are saved entry by entry
(binary payloads modelled as already decoded), and the handler reports
success with the number of files saved. -/
def api_sync_files (state : Workspaces) (req : SyncRequest) :
    Workspaces × SyncResponse :=
  let pid := req.projectId.getD "unknown_project"
  let ws0 := (wsGet state pid).getD []
  let r1 := syncWriteLoop (ws0, 0) req.files
  let r2 := syncWriteLoop r1 req.binaryFiles
  (wsSet state pid r2.1, .ok (syncOkMsg r2.2 pid))

/-- A toolchain oracle whose every invocation completes with a NON-ZERO
exit code, produces marker-free output and drops the artifact
`main.pdf` into the workspace. -/
def tcOk : Toolchain :=
  fun _ _ fs => .completed 1 "ok" "" (fsWrite fs "main.pdf" "PDFBYTES")

/-- A toolchain oracle whose passes complete but whose output carries the
undefined-references marker, with the artifact present. -/
def tcRerun : Toolchain :=
  fun _ _ fs => .completed 0 "There were undefined references" "" (fsWrite fs "main.pdf" "P")

/-- A toolchain oracle where Pass 1 completes (without writing an `.aux`
file) and every later invocation times out. -/
def tcPass2Timeout : Toolchain :=
  fun n _ fs => if n = 0 then .completed 0 "pass1out" "" fs else .timedOut

/-- A toolchain oracle whose executable is never resolvable on the host. -/
def tcNoExec : Toolchain := fun _ _ _ => .execNotFound

/-- A small materialized workspace holding one root-level main document. -/
def demoFs : FS := [("main.tex", "\\documentclass x body")]


/-- The artifact check answers 200 with the stored artifact when it is present. -/
theorem finishBuild_response_some {eng m : String} {fs : FS} {log : String}
    {tr : List TraceEntry} {p2 : Option String} {c : String}
    (h : fsGet fs (artifactName m) = some c) :
    (finishBuild eng m fs log tr p2).response = .pdfSuccess c := by
  simp [finishBuild, h]

/-- The artifact check answers the 400-with-logs when the artifact is absent. -/
theorem finishBuild_response_none {eng m : String} {fs : FS} {log : String}
    {tr : List TraceEntry} {p2 : Option String}
    (h : fsGet fs (artifactName m) = none) :
    (finishBuild eng m fs log tr p2).response = .compilationFailed noPdfMsg log := by
  simp [finishBuild, h]

/-- The artifact check reports the workspace it inspected. -/
theorem finishBuild_finalFs (eng m : String) (fs : FS) (log : String)
    (tr : List TraceEntry) (p2 : Option String) :
    (finishBuild eng m fs log tr p2).finalFs = fs := by
  unfold finishBuild
  rcases fsGet fs (artifactName m) <;> rfl

/-- The artifact check reports the log it was given. -/
theorem finishBuild_log (eng m : String) (fs : FS) (log : String)
    (tr : List TraceEntry) (p2 : Option String) :
    (finishBuild eng m fs log tr p2).log = log := by
  unfold finishBuild
  rcases fsGet fs (artifactName m) <;> rfl

/-- The artifact check performs no further invocation. -/
theorem finishBuild_trace (eng m : String) (fs : FS) (log : String)
    (tr : List TraceEntry) (p2 : Option String) :
    (finishBuild eng m fs log tr p2).trace = tr := by
  unfold finishBuild
  rcases fsGet fs (artifactName m) <;> rfl

/-- The artifact check passes the recorded Pass 2 stdout through. -/
theorem finishBuild_pass2Stdout (eng m : String) (fs : FS) (log : String)
    (tr : List TraceEntry) (p2 : Option String) :
    (finishBuild eng m fs log tr p2).pass2Stdout = p2 := by
  unfold finishBuild
  rcases fsGet fs (artifactName m) <;> rfl

/-- The artifact check reports the engine it was given. -/
theorem finishBuild_engineUsed (eng m : String) (fs : FS) (log : String)
    (tr : List TraceEntry) (p2 : Option String) :
    (finishBuild eng m fs log tr p2).engineUsed = eng := by
  unfold finishBuild
  rcases fsGet fs (artifactName m) <;> rfl

/-- Artifact-presence criterion for the tail of the pipeline: when every
recorded engine invocation completed, the response is decided solely by
the artifact's presence in the final workspace. -/
theorem pass2AndOn_artifact (tc : Toolchain) (idx : Nat) (bc : Cmd) (eng m : String)
    (fs : FS) (log : String) (tr : List TraceEntry)
    (h : ∀ e ∈ (pass2AndOn tc idx bc eng m fs log tr).trace,
        isEngineLabel e.label = true → isCompletedRun e.outcome = true) :
    (∀ c, fsGet (pass2AndOn tc idx bc eng m fs log tr).finalFs (artifactName m) = some c →
        (pass2AndOn tc idx bc eng m fs log tr).response = .pdfSuccess c) ∧
    (fsGet (pass2AndOn tc idx bc eng m fs log tr).finalFs (artifactName m) = none →
        (pass2AndOn tc idx bc eng m fs log tr).response =
          .compilationFailed noPdfMsg (pass2AndOn tc idx bc eng m fs log tr).log) := by
  rcases h2 : tc idx bc fs with ⟨rc2, out2, err2, fsC⟩ | _ | _
  · cases hr : rerunRequested out2
    · simp [pass2AndOn, h2, hr, finishBuild_finalFs, finishBuild_log]
      exact ⟨fun c hc => finishBuild_response_some hc, fun hn => finishBuild_response_none hn⟩
    · rcases h3 : tc (idx + 1) bc fsC with ⟨rc3, out3, err3, fsD⟩ | _ | _
      · simp [pass2AndOn, h2, hr, h3, finishBuild_finalFs, finishBuild_log]
        exact ⟨fun c hc => finishBuild_response_some hc, fun hn => finishBuild_response_none hn⟩
      · exfalso
        have hm : (⟨.pass3, bc, .timedOut⟩ : TraceEntry) ∈
            (pass2AndOn tc idx bc eng m fs log tr).trace := by
          simp [pass2AndOn, h2, hr, h3]
        have := h _ hm (by simp [isEngineLabel])
        simp [isCompletedRun] at this
      · exfalso
        have hm : (⟨.pass3, bc, .execNotFound⟩ : TraceEntry) ∈
            (pass2AndOn tc idx bc eng m fs log tr).trace := by
          simp [pass2AndOn, h2, hr, h3]
        have := h _ hm (by simp [isEngineLabel])
        simp [isCompletedRun] at this
  · exfalso
    have hm : (⟨.pass2, bc, .timedOut⟩ : TraceEntry) ∈
        (pass2AndOn tc idx bc eng m fs log tr).trace := by
      simp [pass2AndOn, h2]
    have := h _ hm (by simp [isEngineLabel])
    simp [isCompletedRun] at this
  · exfalso
    have hm : (⟨.pass2, bc, .execNotFound⟩ : TraceEntry) ∈
        (pass2AndOn tc idx bc eng m fs log tr).trace := by
      simp [pass2AndOn, h2]
    have := h _ hm (by simp [isEngineLabel])
    simp [isCompletedRun] at this

/-- C1: for every build all of whose engine passes complete (exit codes
arbitrary, in particular non-zero), success is reported exactly when the
expected artifact (main-file stem plus the fixed `.pdf` extension) is
present in the work directory after the final pass, and its absence
yields the CompilationError response with the full accumulated log
attached — exit codes play no role in the decision. -/
theorem c1_artifact_presence_decides_success (tc : Toolchain) (eng m : String) (fs : FS)
    (h : ∀ e ∈ (runPipeline tc eng m fs).trace,
        isEngineLabel e.label = true → isCompletedRun e.outcome = true) :
    (∀ c, fsGet (runPipeline tc eng m fs).finalFs (artifactName m) = some c →
        (runPipeline tc eng m fs).response = .pdfSuccess c) ∧
    (fsGet (runPipeline tc eng m fs).finalFs (artifactName m) = none →
        (runPipeline tc eng m fs).response =
          .compilationFailed noPdfMsg (runPipeline tc eng m fs).log) := by
  rcases h1 : tc 0 (mkBaseCmd eng m) fs with ⟨rc1, out1, err1, fsA⟩ | _ | _
  · cases hb : needsBib m fsA
    · simp only [runPipeline, h1, afterPass1, hb, Bool.false_eq_true, if_false] at h ⊢
      exact pass2AndOn_artifact _ _ _ _ _ _ _ _ h
    · rcases hbib : tc 1 (mkBibCmd m) fsA with ⟨rcb, outb, errb, fsB⟩ | _ | _
      · simp only [runPipeline, h1, afterPass1, hb, if_true, hbib] at h ⊢
        exact pass2AndOn_artifact _ _ _ _ _ _ _ _ h
      · simp only [runPipeline, h1, afterPass1, hb, if_true, hbib] at h ⊢
        exact pass2AndOn_artifact _ _ _ _ _ _ _ _ h
      · simp only [runPipeline, h1, afterPass1, hb, if_true, hbib] at h ⊢
        exact pass2AndOn_artifact _ _ _ _ _ _ _ _ h
  · exfalso
    have hm : (⟨.pass1, mkBaseCmd eng m, .timedOut⟩ : TraceEntry) ∈
        (runPipeline tc eng m fs).trace := by
      simp [runPipeline, h1]
    have := h _ hm (by simp [isEngineLabel])
    simp [isCompletedRun] at this
  · exfalso
    have hm : (⟨.pass1, mkBaseCmd eng m, .execNotFound⟩ : TraceEntry) ∈
        (runPipeline tc eng m fs).trace := by
      simp [runPipeline, h1]
    have := h _ hm (by simp [isEngineLabel])
    simp [isCompletedRun] at this

/-- C1 witness: a concrete two-pass build whose passes exit with the
non-zero code 1 but leave `main.pdf` on disk is reported as success. -/
theorem c1_witness :
    (runPipeline tcOk "pdflatex" "main.tex" demoFs).response = .pdfSuccess "PDFBYTES" :=
  (c1_artifact_presence_decides_success tcOk "pdflatex" "main.tex" demoFs
    (by decide)).1 "PDFBYTES" (by decide)

/-- Number of Pass 3 invocations recorded in a trace. -/
def pass3Count (tr : List TraceEntry) : Nat :=
  tr.countP (fun e => decide (e.label = PassLabel.pass3))

/-- Number of engine invocations (Pass 1/2/3) recorded in a trace. -/
def enginePassCount (tr : List TraceEntry) : Nat :=
  tr.countP (fun e => isEngineLabel e.label)

/-- Rerun policy of the pipeline tail: Pass 3 is invoked exactly when
Pass 2 completed and its stdout carries a rerun marker, and at most once. -/
theorem pass2AndOn_pass3 (tc : Toolchain) (idx : Nat) (bc : Cmd) (eng m : String)
    (fs : FS) (log : String) (tr : List TraceEntry) (htr : pass3Count tr = 0) :
    (∀ s, (pass2AndOn tc idx bc eng m fs log tr).pass2Stdout = some s →
        (rerunRequested s = true →
          pass3Count (pass2AndOn tc idx bc eng m fs log tr).trace = 1) ∧
        (rerunRequested s = false →
          pass3Count (pass2AndOn tc idx bc eng m fs log tr).trace = 0)) ∧
    ((pass2AndOn tc idx bc eng m fs log tr).pass2Stdout = none →
        pass3Count (pass2AndOn tc idx bc eng m fs log tr).trace = 0) := by
  have hcount : pass3Count tr = 0 := htr
  rcases h2 : tc idx bc fs with ⟨rc2, out2, err2, fsC⟩ | _ | _
  · cases hr : rerunRequested out2
    · simp [pass2AndOn, h2, hr, finishBuild_pass2Stdout, finishBuild_trace, pass3Count,
        List.countP_append] at hcount ⊢
      exact hcount
    · rcases h3 : tc (idx + 1) bc fsC with ⟨rc3, out3, err3, fsD⟩ | _ | _ <;>
        simp [pass2AndOn, h2, hr, h3, finishBuild_pass2Stdout, finishBuild_trace, pass3Count,
          List.countP_append] at hcount ⊢ <;>
        exact hcount
  · simp [pass2AndOn, h2, pass3Count, List.countP_append] at hcount ⊢
    exact hcount
  · simp [pass2AndOn, h2, pass3Count, List.countP_append] at hcount ⊢
    exact hcount

/-- C3: Pass 3 runs exactly when Pass 2's captured stdout contains the
cross-reference rerun marker or the undefined-references marker; at most
one extra pass ever runs, and a build that never produced a Pass 2
output runs no Pass 3. -/
theorem c3_rerun_marker_iff_pass3 (tc : Toolchain) (eng m : String) (fs : FS) :
    (∀ s, (runPipeline tc eng m fs).pass2Stdout = some s →
        (rerunRequested s = true → pass3Count (runPipeline tc eng m fs).trace = 1) ∧
        (rerunRequested s = false → pass3Count (runPipeline tc eng m fs).trace = 0)) ∧
    ((runPipeline tc eng m fs).pass2Stdout = none →
        pass3Count (runPipeline tc eng m fs).trace = 0) ∧
    pass3Count (runPipeline tc eng m fs).trace ≤ 1 := by
  have main : (∀ s, (runPipeline tc eng m fs).pass2Stdout = some s →
      (rerunRequested s = true → pass3Count (runPipeline tc eng m fs).trace = 1) ∧
      (rerunRequested s = false → pass3Count (runPipeline tc eng m fs).trace = 0)) ∧
      ((runPipeline tc eng m fs).pass2Stdout = none →
        pass3Count (runPipeline tc eng m fs).trace = 0) := by
    rcases h1 : tc 0 (mkBaseCmd eng m) fs with ⟨rc1, out1, err1, fsA⟩ | _ | _
    · cases hb : needsBib m fsA
      · simp only [runPipeline, h1, afterPass1, hb, Bool.false_eq_true, if_false]
        exact pass2AndOn_pass3 _ _ _ _ _ _ _ _ (by simp [pass3Count])
      · rcases hbib : tc 1 (mkBibCmd m) fsA with ⟨rcb, outb, errb, fsB⟩ | _ | _ <;>
          simp only [runPipeline, h1, afterPass1, hb, if_true, hbib] <;>
          exact pass2AndOn_pass3 _ _ _ _ _ _ _ _ (by simp [pass3Count])
    · simp [runPipeline, h1, pass3Count]
    · simp [runPipeline, h1, pass3Count]
  refine ⟨main.1, main.2, ?_⟩
  rcases hp : (runPipeline tc eng m fs).pass2Stdout with _ | s
  · have := main.2 hp
    omega
  · cases hr : rerunRequested s
    · have := (main.1 s hp).2 hr
      omega
    · have := (main.1 s hp).1 hr
      omega

/-- C3 witness: a concrete build whose Pass 2 stdout is exactly the
undefined-references marker runs exactly one Pass 3. -/
theorem c3_witness :
    pass3Count (runPipeline tcRerun "pdflatex" "main.tex" demoFs).trace = 1 :=
  ((c3_rerun_marker_iff_pass3 tcRerun "pdflatex" "main.tex" demoFs).1
    "There were undefined references" (by decide)).1 (by decide)

/-- Shape of the pipeline tail: it appends a Pass 2 invocation, then at
most a Pass 3 invocation, both reusing the same base command. -/
theorem pass2AndOn_shape (tc : Toolchain) (idx : Nat) (bc : Cmd) (eng m : String)
    (fs : FS) (log : String) (tr : List TraceEntry) :
    ((pass2AndOn tc idx bc eng m fs log tr).trace.map TraceEntry.label =
        tr.map TraceEntry.label ++ [.pass2] ∨
     (pass2AndOn tc idx bc eng m fs log tr).trace.map TraceEntry.label =
        tr.map TraceEntry.label ++ [.pass2, .pass3]) ∧
    (∀ e ∈ (pass2AndOn tc idx bc eng m fs log tr).trace, e ∈ tr ∨ e.cmd = bc) := by
  rcases h2 : tc idx bc fs with ⟨rc2, out2, err2, fsC⟩ | _ | _
  · cases hr : rerunRequested out2
    · constructor
      · exact Or.inl (by simp [pass2AndOn, h2, hr, finishBuild_trace])
      · intro e he
        simp [pass2AndOn, h2, hr, finishBuild_trace] at he
        rcases he with he | he
        · exact Or.inl he
        · exact Or.inr (by simp [he])
    · rcases h3 : tc (idx + 1) bc fsC with ⟨rc3, out3, err3, fsD⟩ | _ | _
      · constructor
        · exact Or.inr (by simp [pass2AndOn, h2, hr, h3, finishBuild_trace])
        · intro e he
          simp [pass2AndOn, h2, hr, h3, finishBuild_trace] at he
          rcases he with he | he | he
          · exact Or.inl he
          · exact Or.inr (by simp [he])
          · exact Or.inr (by simp [he])
      · constructor
        · exact Or.inr (by simp [pass2AndOn, h2, hr, h3])
        · intro e he
          simp [pass2AndOn, h2, hr, h3] at he
          rcases he with he | he | he
          · exact Or.inl he
          · exact Or.inr (by simp [he])
          · exact Or.inr (by simp [he])
      · constructor
        · exact Or.inr (by simp [pass2AndOn, h2, hr, h3])
        · intro e he
          simp [pass2AndOn, h2, hr, h3] at he
          rcases he with he | he | he
          · exact Or.inl he
          · exact Or.inr (by simp [he])
          · exact Or.inr (by simp [he])
  · constructor
    · exact Or.inl (by simp [pass2AndOn, h2])
    · intro e he
      simp [pass2AndOn, h2] at he
      rcases he with he | he
      · exact Or.inl he
      · exact Or.inr (by simp [he])
  · constructor
    · exact Or.inl (by simp [pass2AndOn, h2])
    · intro e he
      simp [pass2AndOn, h2] at he
      rcases he with he | he
      · exact Or.inl he
      · exact Or.inr (by simp [he])

/-- C7: whenever Pass 1 completes (no timeout, no launch failure), a
Pass 2 invocation follows unconditionally — directly after Pass 1 or
after the bibliography pass — and every engine pass of the build uses
the identical invocation (same command vector, working directory and
timeout) as Pass 1. -/
theorem c7_pass2_unconditional_same_shape (tc : Toolchain) (eng m : String) (fs : FS)
    (h : ∃ e ∈ (runPipeline tc eng m fs).trace,
        e.label = PassLabel.pass1 ∧ isCompletedRun e.outcome = true) :
    ((runPipeline tc eng m fs).trace.map TraceEntry.label = [.pass1, .pass2] ∨
     (runPipeline tc eng m fs).trace.map TraceEntry.label = [.pass1, .pass2, .pass3] ∨
     (runPipeline tc eng m fs).trace.map TraceEntry.label = [.pass1, .bibliography, .pass2] ∨
     (runPipeline tc eng m fs).trace.map TraceEntry.label =
        [.pass1, .bibliography, .pass2, .pass3]) ∧
    (∀ e ∈ (runPipeline tc eng m fs).trace, isEngineLabel e.label = true →
        e.cmd = mkBaseCmd eng m) := by
  rcases h1 : tc 0 (mkBaseCmd eng m) fs with ⟨rc1, out1, err1, fsA⟩ | _ | _
  · cases hb : needsBib m fsA
    · have hs := pass2AndOn_shape tc 1 (mkBaseCmd eng m) eng m fsA
        (passLog "Pass 1" out1 err1)
        [⟨.pass1, mkBaseCmd eng m, .completed rc1 out1 err1 fsA⟩]
      simp only [runPipeline, h1, afterPass1, hb, Bool.false_eq_true, if_false]
      constructor
      · rcases hs.1 with hmap | hmap
        · exact Or.inl (by rw [hmap]; simp)
        · exact Or.inr (Or.inl (by rw [hmap]; simp))
      · intro e he _
        rcases hs.2 e he with hin | hcmd
        · simp at hin
          simp [hin]
        · exact hcmd
    · rcases hbib : tc 1 (mkBibCmd m) fsA with ⟨rcb, outb, errb, fsB⟩ | _ | _
      · have hs := pass2AndOn_shape tc 2 (mkBaseCmd eng m) eng m fsB
          (passLog "Pass 1" out1 err1 ++ passLog "BibTeX" outb errb)
          [⟨.pass1, mkBaseCmd eng m, .completed rc1 out1 err1 fsA⟩,
           ⟨.bibliography, mkBibCmd m, .completed rcb outb errb fsB⟩]
        simp only [runPipeline, h1, afterPass1, hb, if_true, hbib]
        constructor
        · rcases hs.1 with hmap | hmap
          · exact Or.inr (Or.inr (Or.inl (by rw [hmap]; simp)))
          · exact Or.inr (Or.inr (Or.inr (by rw [hmap]; simp)))
        · intro e he heng
          rcases hs.2 e he with hin | hcmd
          · simp at hin
            rcases hin with hin | hin
            · simp [hin]
            · rw [hin] at heng
              simp [isEngineLabel] at heng
          · exact hcmd
      · have hs := pass2AndOn_shape tc 2 (mkBaseCmd eng m) eng m fsA
          (passLog "Pass 1" out1 err1 ++ "\n[WARN] BibTeX error: timeout\n")
          [⟨.pass1, mkBaseCmd eng m, .completed rc1 out1 err1 fsA⟩,
           ⟨.bibliography, mkBibCmd m, .timedOut⟩]
        simp only [runPipeline, h1, afterPass1, hb, if_true, hbib]
        constructor
        · rcases hs.1 with hmap | hmap
          · exact Or.inr (Or.inr (Or.inl (by rw [hmap]; simp)))
          · exact Or.inr (Or.inr (Or.inr (by rw [hmap]; simp)))
        · intro e he heng
          rcases hs.2 e he with hin | hcmd
          · simp at hin
            rcases hin with hin | hin
            · simp [hin]
            · rw [hin] at heng
              simp [isEngineLabel] at heng
          · exact hcmd
      · have hs := pass2AndOn_shape tc 2 (mkBaseCmd eng m) eng m fsA
          (passLog "Pass 1" out1 err1 ++ "\n[WARN] BibTeX not found/installed.\n")
          [⟨.pass1, mkBaseCmd eng m, .completed rc1 out1 err1 fsA⟩,
           ⟨.bibliography, mkBibCmd m, .execNotFound⟩]
        simp only [runPipeline, h1, afterPass1, hb, if_true, hbib]
        constructor
        · rcases hs.1 with hmap | hmap
          · exact Or.inr (Or.inr (Or.inl (by rw [hmap]; simp)))
          · exact Or.inr (Or.inr (Or.inr (by rw [hmap]; simp)))
        · intro e he heng
          rcases hs.2 e he with hin | hcmd
          · simp at hin
            rcases hin with hin | hin
            · simp [hin]
            · rw [hin] at heng
              simp [isEngineLabel] at heng
          · exact hcmd
  · exfalso
    obtain ⟨e, he, hlab, hcomp⟩ := h
    simp [runPipeline, h1] at he
    rw [he] at hcomp
    simp [isCompletedRun] at hcomp
  · exfalso
    obtain ⟨e, he, hlab, hcomp⟩ := h
    simp [runPipeline, h1] at he
    rw [he] at hcomp
    simp [isCompletedRun] at hcomp

/-- C7 witness: in a concrete completing build the invocation labels are
exactly Pass 1 then Pass 2, both with the identical base command. -/
theorem c7_witness :
    (runPipeline tcOk "pdflatex" "main.tex" demoFs).trace.map TraceEntry.label =
      [.pass1, .pass2] ∨
    (runPipeline tcOk "pdflatex" "main.tex" demoFs).trace.map TraceEntry.label =
      [.pass1, .pass2, .pass3] ∨
    (runPipeline tcOk "pdflatex" "main.tex" demoFs).trace.map TraceEntry.label =
      [.pass1, .bibliography, .pass2] ∨
    (runPipeline tcOk "pdflatex" "main.tex" demoFs).trace.map TraceEntry.label =
      [.pass1, .bibliography, .pass2, .pass3] :=
  (c7_pass2_unconditional_same_shape tcOk "pdflatex" "main.tex" demoFs
    ⟨⟨.pass1, mkBaseCmd "pdflatex" "main.tex",
        .completed 1 "ok" "" (fsWrite demoFs "main.pdf" "PDFBYTES")⟩,
      by decide, by decide, by decide⟩).1

/-- Every invocation the pipeline tail adds is labeled Pass 2 or Pass 3. -/
theorem pass2AndOn_mem (tc : Toolchain) (idx : Nat) (bc : Cmd) (eng m : String)
    (fs : FS) (log : String) (tr : List TraceEntry) :
    ∀ e ∈ (pass2AndOn tc idx bc eng m fs log tr).trace,
      e ∈ tr ∨ e.label = PassLabel.pass2 ∨ e.label = PassLabel.pass3 := by
  rcases h2 : tc idx bc fs with ⟨rc2, out2, err2, fsC⟩ | _ | _
  · cases hr : rerunRequested out2
    · intro e he
      simp [pass2AndOn, h2, hr, finishBuild_trace] at he
      rcases he with he | he
      · exact Or.inl he
      · exact Or.inr (Or.inl (by simp [he]))
    · rcases h3 : tc (idx + 1) bc fsC with ⟨rc3, out3, err3, fsD⟩ | _ | _ <;>
      · intro e he
        simp [pass2AndOn, h2, hr, h3, finishBuild_trace] at he
        rcases he with he | he | he
        · exact Or.inl he
        · exact Or.inr (Or.inl (by simp [he]))
        · exact Or.inr (Or.inr (by simp [he]))
  · intro e he
    simp [pass2AndOn, h2] at he
    rcases he with he | he
    · exact Or.inl he
    · exact Or.inr (Or.inl (by simp [he]))
  · intro e he
    simp [pass2AndOn, h2] at he
    rcases he with he | he
    · exact Or.inl he
    · exact Or.inr (Or.inl (by simp [he]))

/-- A timed-out Pass 2 or Pass 3 invocation in the tail's trace forces
the generic 500 response of the outer exception handler. -/
theorem pass2AndOn_timeout23 (tc : Toolchain) (idx : Nat) (bc : Cmd) (eng m : String)
    (fs : FS) (log : String) (tr : List TraceEntry)
    (htr : ∀ e ∈ tr, ¬((e.label = PassLabel.pass2 ∨ e.label = PassLabel.pass3) ∧
        e.outcome = RunResult.timedOut)) :
    (∃ e ∈ (pass2AndOn tc idx bc eng m fs log tr).trace,
        (e.label = PassLabel.pass2 ∨ e.label = PassLabel.pass3) ∧
        e.outcome = RunResult.timedOut) →
      (pass2AndOn tc idx bc eng m fs log tr).response =
        .internalError timeoutInternalMsg := by
  rcases h2 : tc idx bc fs with ⟨rc2, out2, err2, fsC⟩ | _ | _
  · cases hr : rerunRequested out2
    · intro hex
      exfalso
      obtain ⟨e, he, hlab, hto⟩ := hex
      simp [pass2AndOn, h2, hr, finishBuild_trace] at he
      rcases he with he | he
      · exact htr e he ⟨hlab, hto⟩
      · rw [he] at hto
        simp at hto
    · rcases h3 : tc (idx + 1) bc fsC with ⟨rc3, out3, err3, fsD⟩ | _ | _
      · intro hex
        exfalso
        obtain ⟨e, he, hlab, hto⟩ := hex
        simp [pass2AndOn, h2, hr, h3, finishBuild_trace] at he
        rcases he with he | he | he
        · exact htr e he ⟨hlab, hto⟩
        · rw [he] at hto
          simp at hto
        · rw [he] at hto
          simp at hto
      · intro _
        simp [pass2AndOn, h2, hr, h3]
      · intro hex
        exfalso
        obtain ⟨e, he, hlab, hto⟩ := hex
        simp [pass2AndOn, h2, hr, h3] at he
        rcases he with he | he | he
        · exact htr e he ⟨hlab, hto⟩
        · rw [he] at hto
          simp at hto
        · rw [he] at hto
          simp at hto
  · intro _
    simp [pass2AndOn, h2]
  · intro hex
    exfalso
    obtain ⟨e, he, hlab, hto⟩ := hex
    simp [pass2AndOn, h2] at he
    rcases he with he | he
    · exact htr e he ⟨hlab, hto⟩
    · rw [he] at hto
      simp at hto

/-- Timeout behavior of the pipeline tail, assuming no engine invocation
recorded before it timed out: a Pass 1 timeout cannot appear, a Pass 2 or
Pass 3 timeout forces the 500 response, and any engine timeout excludes
the success response. -/
theorem pass2AndOn_c5 (tc : Toolchain) (idx : Nat) (bc : Cmd) (eng m : String)
    (fs : FS) (log : String) (tr : List TraceEntry)
    (htrEng : ∀ e ∈ tr, isEngineLabel e.label = true → e.outcome ≠ RunResult.timedOut) :
    ((∃ e ∈ (pass2AndOn tc idx bc eng m fs log tr).trace,
        e.label = PassLabel.pass1 ∧ e.outcome = RunResult.timedOut) → False) ∧
    ((∃ e ∈ (pass2AndOn tc idx bc eng m fs log tr).trace,
        (e.label = PassLabel.pass2 ∨ e.label = PassLabel.pass3) ∧
        e.outcome = RunResult.timedOut) →
      (pass2AndOn tc idx bc eng m fs log tr).response =
        .internalError timeoutInternalMsg) ∧
    ((∃ e ∈ (pass2AndOn tc idx bc eng m fs log tr).trace,
        isEngineLabel e.label = true ∧ e.outcome = RunResult.timedOut) →
      ∀ c, (pass2AndOn tc idx bc eng m fs log tr).response ≠ .pdfSuccess c) := by
  have htr23 : ∀ e ∈ tr, ¬((e.label = PassLabel.pass2 ∨ e.label = PassLabel.pass3) ∧
      e.outcome = RunResult.timedOut) := by
    intro e he hcon
    apply htrEng e he _ hcon.2
    rcases hcon.1 with hl | hl <;> simp [hl, isEngineLabel]
  have hb := pass2AndOn_timeout23 tc idx bc eng m fs log tr htr23
  refine ⟨?_, hb, ?_⟩
  · intro hex
    obtain ⟨e, he, hlab, hto⟩ := hex
    rcases pass2AndOn_mem tc idx bc eng m fs log tr e he with hin | hl | hl
    · exact htrEng e hin (by simp [hlab, isEngineLabel]) hto
    · rw [hlab] at hl
      exact PassLabel.noConfusion hl
    · rw [hlab] at hl
      exact PassLabel.noConfusion hl
  · intro hex c hresp
    obtain ⟨e, he, heng, hto⟩ := hex
    rcases pass2AndOn_mem tc idx bc eng m fs log tr e he with hin | hl | hl
    · exact htrEng e hin heng hto
    · rw [hb ⟨e, he, Or.inl hl, hto⟩] at hresp
      exact ApiResult.noConfusion hresp
    · rw [hb ⟨e, he, Or.inr hl, hto⟩] at hresp
      exact ApiResult.noConfusion hresp

/-- C5 (amended): a Pass 1 timeout yields the dedicated timeout response
(HTTP 408), while a Pass 2 or Pass 3 timeout escapes the pass-specific
handler and surfaces as the generic InternalError response (HTTP 500);
in every case a timed-out engine pass makes success impossible, so no
artifact from a timed-out pass is ever returned. -/
theorem c5_amended_timeout_handling (tc : Toolchain) (eng m : String) (fs : FS) :
    ((∃ e ∈ (runPipeline tc eng m fs).trace,
        e.label = PassLabel.pass1 ∧ e.outcome = RunResult.timedOut) →
      (runPipeline tc eng m fs).response = .timeoutPass1 pass1TimeoutMsg) ∧
    ((∃ e ∈ (runPipeline tc eng m fs).trace,
        (e.label = PassLabel.pass2 ∨ e.label = PassLabel.pass3) ∧
        e.outcome = RunResult.timedOut) →
      (runPipeline tc eng m fs).response = .internalError timeoutInternalMsg) ∧
    ((∃ e ∈ (runPipeline tc eng m fs).trace,
        isEngineLabel e.label = true ∧ e.outcome = RunResult.timedOut) →
      ∀ c, (runPipeline tc eng m fs).response ≠ .pdfSuccess c) := by
  rcases h1 : tc 0 (mkBaseCmd eng m) fs with ⟨rc1, out1, err1, fsA⟩ | _ | _
  · cases hb : needsBib m fsA
    · simp only [runPipeline, h1, afterPass1, hb, Bool.false_eq_true, if_false]
      have ht := pass2AndOn_c5 tc 1 (mkBaseCmd eng m) eng m fsA
        (passLog "Pass 1" out1 err1)
        [⟨.pass1, mkBaseCmd eng m, .completed rc1 out1 err1 fsA⟩]
        (by intro e he; simp at he; simp [he])
      exact ⟨fun hex => (ht.1 hex).elim, ht.2.1, ht.2.2⟩
    · rcases hbib : tc 1 (mkBibCmd m) fsA with ⟨rcb, outb, errb, fsB⟩ | _ | _
      · simp only [runPipeline, h1, afterPass1, hb, if_true, hbib]
        have ht := pass2AndOn_c5 tc 2 (mkBaseCmd eng m) eng m fsB
          (passLog "Pass 1" out1 err1 ++ passLog "BibTeX" outb errb)
          [⟨.pass1, mkBaseCmd eng m, .completed rc1 out1 err1 fsA⟩,
           ⟨.bibliography, mkBibCmd m, .completed rcb outb errb fsB⟩]
          (by intro e he
              simp at he
              rcases he with he | he <;> simp [he, isEngineLabel])
        exact ⟨fun hex => (ht.1 hex).elim, ht.2.1, ht.2.2⟩
      · simp only [runPipeline, h1, afterPass1, hb, if_true, hbib]
        have ht := pass2AndOn_c5 tc 2 (mkBaseCmd eng m) eng m fsA
          (passLog "Pass 1" out1 err1 ++ "\n[WARN] BibTeX error: timeout\n")
          [⟨.pass1, mkBaseCmd eng m, .completed rc1 out1 err1 fsA⟩,
           ⟨.bibliography, mkBibCmd m, .timedOut⟩]
          (by intro e he
              simp at he
              rcases he with he | he <;> simp [he, isEngineLabel])
        exact ⟨fun hex => (ht.1 hex).elim, ht.2.1, ht.2.2⟩
      · simp only [runPipeline, h1, afterPass1, hb, if_true, hbib]
        have ht := pass2AndOn_c5 tc 2 (mkBaseCmd eng m) eng m fsA
          (passLog "Pass 1" out1 err1 ++ "\n[WARN] BibTeX not found/installed.\n")
          [⟨.pass1, mkBaseCmd eng m, .completed rc1 out1 err1 fsA⟩,
           ⟨.bibliography, mkBibCmd m, .execNotFound⟩]
          (by intro e he
              simp at he
              rcases he with he | he <;> simp [he, isEngineLabel])
        exact ⟨fun hex => (ht.1 hex).elim, ht.2.1, ht.2.2⟩
  · refine ⟨fun _ => by simp [runPipeline, h1], fun hex => ?_, fun _ c => by simp [runPipeline, h1]⟩
    exfalso
    obtain ⟨e, he, hlab, _⟩ := hex
    simp [runPipeline, h1] at he
    rw [he] at hlab
    rcases hlab with hl | hl <;> exact PassLabel.noConfusion hl
  · refine ⟨fun hex => ?_, fun hex => ?_, fun hex c => ?_⟩ <;>
    · exfalso
      obtain ⟨e, he, _, hto⟩ := hex
      simp [runPipeline, h1] at he
      rw [he] at hto
      exact RunResult.noConfusion hto

/-- C5 counterexample: a build whose Pass 2 times out answers the generic
InternalError (HTTP 500), not the dedicated timeout response the claim
demands for every pass. -/
theorem c5_counterexample :
    (runPipeline tcPass2Timeout "pdflatex" "main.tex" [("main.tex", "x")]).response =
      .internalError timeoutInternalMsg ∧
    (runPipeline tcPass2Timeout "pdflatex" "main.tex" [("main.tex", "x")]).response ≠
      .timeoutPass1 pass1TimeoutMsg ∧
    (runPipeline tcPass2Timeout "pdflatex" "main.tex" [("main.tex", "x")]).trace.map
      TraceEntry.label = [.pass1, .pass2] := by
  decide

/-- C5 witness: the amended theorem applied to the concrete Pass 2
timeout scenario. -/
theorem c5_witness :
    (runPipeline tcPass2Timeout "pdflatex" "main.tex" demoFs).response =
      .internalError timeoutInternalMsg :=
  (c5_amended_timeout_handling tcPass2Timeout "pdflatex" "main.tex" demoFs).2.1
    ⟨⟨.pass2, mkBaseCmd "pdflatex" "main.tex", .timedOut⟩, by decide, by decide, by decide⟩

/-- C6 counterexample: with the hinted path absent, a root-level
`main.tex` without the document-class marker loses to a marker-carrying
file elsewhere — the resolver has no dedicated "root-level file named
main" step, contradicting the claimed resolution order. -/
theorem c6_counterexample :
    resolveMainFile [("main.tex", "hello"), ("zzz.tex", "\\documentclass x")]
      "missing.tex" = some "zzz.tex" ∧
    resolveMainFile [("main.tex", "hello"), ("zzz.tex", "\\documentclass x")]
      "missing.tex" ≠ some "main.tex" := by
  decide

/-- C6 (amended): resolution is (1) the hinted path when it exists,
else (2) the first file in tree-enumeration order containing the
document-class marker, else (3) the first document-extension file at
all, else NotFound; with the default hint `main.tex` the candidate set
containing both `sub/main.tex` and a root-level `main.tex` resolves to
the root-level file. -/
theorem c6_amended_resolver_order :
    (resolveMainFile [("sub/main.tex", "A"), ("main.tex", "B")] "main.tex" =
      some "main.tex") ∧
    (∀ fs hint, (fsGet fs hint).isSome = true → resolveMainFile fs hint = some hint) ∧
    (∀ fs hint, fsGet fs hint = none → texFiles fs = [] →
      resolveMainFile fs hint = none) ∧
    (∀ fs hint p, fsGet fs hint = none →
      (texFiles fs).find? (fun q => strContains ((fsGet fs q).getD "") docClassMarker) =
        some p →
      resolveMainFile fs hint = some p) ∧
    (∀ fs hint, fsGet fs hint = none →
      (texFiles fs).find? (fun q => strContains ((fsGet fs q).getD "") docClassMarker) =
        none →
      resolveMainFile fs hint = (texFiles fs).head?) := by
  refine ⟨by decide, ?_, ?_, ?_, ?_⟩
  · intro fs hint h
    simp [resolveMainFile, h]
  · intro fs hint h htex
    simp [resolveMainFile, h, htex]
  · intro fs hint p h hf
    simp [resolveMainFile, h, hf]
  · intro fs hint h hf
    simp [resolveMainFile, h, hf]

/-- C6 witness: the amended resolver order applied to a concrete
workspace in which auto-detection picks the marker-carrying file. -/
theorem c6_witness :
    resolveMainFile [("intro.tex", "text"), ("body.tex", "\\documentclass y")]
      "ghost.tex" = some "body.tex" :=
  c6_amended_resolver_order.2.2.2.1
    [("intro.tex", "text"), ("body.tex", "\\documentclass y")] "ghost.tex" "body.tex"
    (by decide) (by decide)

/-- The pipeline tail reports the engine string it was given. -/
theorem pass2AndOn_engineUsed (tc : Toolchain) (idx : Nat) (bc : Cmd) (eng m : String)
    (fs : FS) (log : String) (tr : List TraceEntry) :
    (pass2AndOn tc idx bc eng m fs log tr).engineUsed = eng := by
  rcases h2 : tc idx bc fs with ⟨rc2, out2, err2, fsC⟩ | _ | _
  · cases hr : rerunRequested out2
    · simp [pass2AndOn, h2, hr, finishBuild_engineUsed]
    · rcases h3 : tc (idx + 1) bc fsC with ⟨rc3, out3, err3, fsD⟩ | _ | _ <;>
        simp [pass2AndOn, h2, hr, h3, finishBuild_engineUsed]
  · simp [pass2AndOn, h2]
  · simp [pass2AndOn, h2]

/-- The pipeline reports the engine string it was given. -/
theorem runPipeline_engineUsed (tc : Toolchain) (eng m : String) (fs : FS) :
    (runPipeline tc eng m fs).engineUsed = eng := by
  rcases h1 : tc 0 (mkBaseCmd eng m) fs with ⟨rc1, out1, err1, fsA⟩ | _ | _
  · cases hb : needsBib m fsA
    · simp only [runPipeline, h1, afterPass1, hb, Bool.false_eq_true, if_false]
      exact pass2AndOn_engineUsed _ _ _ _ _ _ _ _
    · rcases hbib : tc 1 (mkBibCmd m) fsA with ⟨rcb, outb, errb, fsB⟩ | _ | _ <;>
        simp only [runPipeline, h1, afterPass1, hb, if_true, hbib] <;>
        exact pass2AndOn_engineUsed _ _ _ _ _ _ _ _
  · simp [runPipeline, h1]
  · simp [runPipeline, h1]

/-- C4 counterexample: with a workspace present and an arbitrary
unsupported engine string, the engine command is invoked once (it is not
validated away) and its launch failure surfaces as the generic
InternalError (HTTP 500), not as any dedicated configuration failure. -/
theorem c4_counterexample :
    (runPipeline tcNoExec "engbogus" "main.tex" demoFs).response =
      .internalError launchFailMsg ∧
    (runPipeline tcNoExec "engbogus" "main.tex" demoFs).trace.map TraceEntry.label =
      [.pass1] ∧
    (runPipeline tcNoExec "engbogus" "main.tex" demoFs).trace ≠ [] := by
  decide

/-- C4 (amended): an absent engine name is substituted by the default
`pdflatex`, but a present engine name is adopted verbatim with no
validation against any supported set — it is placed at the head of every
engine invocation's argument vector — and when the engine executable is
not resolvable the build fails with the generic InternalError (HTTP
500), never a dedicated ConfigurationError. -/
theorem c4_amended_engine_handling :
    (∀ tc req, req.engine = none → (compile_real_logic tc req).engineUsed = "pdflatex") ∧
    (∀ tc req nm, req.engine = some nm → (compile_real_logic tc req).engineUsed = nm) ∧
    (∀ tc eng m fs, ∀ e ∈ (runPipeline tc eng m fs).trace,
        isEngineLabel e.label = true → e.cmd.argv.head? = some eng) ∧
    (∀ eng m fs, (runPipeline tcNoExec eng m fs).response =
        .internalError launchFailMsg) := by
  refine ⟨?_, ?_, ?_, ?_⟩
  · intro tc req h
    unfold compile_real_logic
    rcases hr : resolveMainFile (initialFs req) (req.mainFile.getD "main.tex") with _ | m
    · simp [h, hr]
    · simp [h, hr, runPipeline_engineUsed]
  · intro tc req nm h
    unfold compile_real_logic
    rcases hr : resolveMainFile (initialFs req) (req.mainFile.getD "main.tex") with _ | m
    · simp [h, hr]
    · simp [h, hr, runPipeline_engineUsed]
  · intro tc eng m fs e he heng
    have hhead : (mkBaseCmd eng m).argv.head? = some eng := by simp [mkBaseCmd]
    rcases h1 : tc 0 (mkBaseCmd eng m) fs with ⟨rc1, out1, err1, fsA⟩ | _ | _
    · rw [runPipeline] at he
      rcases hb : needsBib m fsA
      · simp only [h1, afterPass1, hb, Bool.false_eq_true, if_false] at he
        rcases pass2AndOn_shape tc 1 (mkBaseCmd eng m) eng m fsA
            (passLog "Pass 1" out1 err1)
            [⟨.pass1, mkBaseCmd eng m, .completed rc1 out1 err1 fsA⟩] |>.2 e he with
          hin | hcmd
        · simp at hin
          simp [hin, mkBaseCmd]
        · rw [hcmd]
          exact hhead
      · rcases hbib : tc 1 (mkBibCmd m) fsA with ⟨rcb, outb, errb, fsB⟩ | _ | _
        · simp only [h1, afterPass1, hb, if_true, hbib] at he
          rcases pass2AndOn_shape tc 2 (mkBaseCmd eng m) eng m fsB
              (passLog "Pass 1" out1 err1 ++ passLog "BibTeX" outb errb)
              [⟨.pass1, mkBaseCmd eng m, .completed rc1 out1 err1 fsA⟩,
               ⟨.bibliography, mkBibCmd m, .completed rcb outb errb fsB⟩] |>.2 e he with
            hin | hcmd
          · simp at hin
            rcases hin with hin | hin
            · simp [hin, mkBaseCmd]
            · rw [hin] at heng
              simp [isEngineLabel] at heng
          · rw [hcmd]
            exact hhead
        · simp only [h1, afterPass1, hb, if_true, hbib] at he
          rcases pass2AndOn_shape tc 2 (mkBaseCmd eng m) eng m fsA
              (passLog "Pass 1" out1 err1 ++ "\n[WARN] BibTeX error: timeout\n")
              [⟨.pass1, mkBaseCmd eng m, .completed rc1 out1 err1 fsA⟩,
               ⟨.bibliography, mkBibCmd m, .timedOut⟩] |>.2 e he with
            hin | hcmd
          · simp at hin
            rcases hin with hin | hin
            · simp [hin, mkBaseCmd]
            · rw [hin] at heng
              simp [isEngineLabel] at heng
          · rw [hcmd]
            exact hhead
        · simp only [h1, afterPass1, hb, if_true, hbib] at he
          rcases pass2AndOn_shape tc 2 (mkBaseCmd eng m) eng m fsA
              (passLog "Pass 1" out1 err1 ++ "\n[WARN] BibTeX not found/installed.\n")
              [⟨.pass1, mkBaseCmd eng m, .completed rc1 out1 err1 fsA⟩,
               ⟨.bibliography, mkBibCmd m, .execNotFound⟩] |>.2 e he with
            hin | hcmd
          · simp at hin
            rcases hin with hin | hin
            · simp [hin, mkBaseCmd]
            · rw [hin] at heng
              simp [isEngineLabel] at heng
          · rw [hcmd]
            exact hhead
    · simp [runPipeline, h1] at he
      simp [he, mkBaseCmd]
    · simp [runPipeline, h1] at he
      simp [he, mkBaseCmd]
  · intro eng m fs
    simp [runPipeline, tcNoExec]

/-- C4 witness: the amended engine handling at concrete inputs — default
substitution on an engine-free request. -/
theorem c4_witness :
    (compile_real_logic tcOk
      { files := [], binaryFiles := [], mainFile := none, engine := none }).engineUsed =
      "pdflatex" :=
  c4_amended_engine_handling.1 tcOk
    { files := [], binaryFiles := [], mainFile := none, engine := none } (by decide)

/-- Writing one path leaves every other path's content unchanged. -/
theorem fsGet_fsWrite_ne (fs : FS) (q c p : String) (h : q ≠ p) :
    fsGet (fsWrite fs q c) p = fsGet fs p := by
  induction fs with
  | nil => simp [fsWrite, fsGet, h]
  | cons e rest ih =>
      by_cases ha : e.1 = q
      · simp [fsWrite, fsGet, ha, h]
      · simp [fsWrite, fsGet, ha, ih]

/-- The saving loop never touches a path that fails the validity check. -/
theorem syncWriteLoop_invalid (entries : List (String × String)) (start : FS × Nat)
    (p : String) (hp : syncPathOk p = false) :
    fsGet (syncWriteLoop start entries).1 p = fsGet start.1 p := by
  induction entries generalizing start with
  | nil => rfl
  | cons e rest ih =>
      simp only [syncWriteLoop, List.foldl_cons] at ih ⊢
      by_cases he : syncPathOk e.1
      · rw [ih]
        simp only [he, if_true]
        exact fsGet_fsWrite_ne _ _ _ _ (fun hq => by rw [hq] at he; rw [he] at hp; cases hp)
      · simp only [he, if_false]
        exact ih _

/-- Storing a workspace makes it retrievable under its identifier. -/
theorem wsGet_wsSet_self (state : Workspaces) (pid : String) (fs : FS) :
    wsGet (wsSet state pid fs) pid = some fs := by
  induction state with
  | nil => simp [wsSet, wsGet]
  | cons e rest ih =>
      by_cases ha : e.1 = pid
      · simp [wsSet, wsGet, ha]
      · simp [wsSet, wsGet, ha, ih]

/-- C2 counterexample: a delta holding a parent-traversal upsert and a
valid upsert is not rejected — the handler reports success and the valid
file is written, so the workspace is mutated despite the invalid entry. -/
theorem c2_counterexample :
    (api_sync_files []
      { projectId := some "proj1", files := [("../evil.tex", "E"), ("good.tex", "G")],
        binaryFiles := [] }).2 = .ok (syncOkMsg 1 "proj1") ∧
    wsGet (api_sync_files []
      { projectId := some "proj1", files := [("../evil.tex", "E"), ("good.tex", "G")],
        binaryFiles := [] }).1 "proj1" = some [("good.tex", "G")] := by
  decide

/-- C2 (amended): the sync handler never rejects a delta — it always
answers success — and each upsert whose path is absolute or contains a
parent-traversal segment is silently skipped, leaving that path's
content in the project workspace unchanged while the remaining entries
are applied. -/
theorem c2_amended_invalid_paths_skipped :
    (∀ state req, ∃ n, (api_sync_files state req).2 =
        .ok (syncOkMsg n (req.projectId.getD "unknown_project"))) ∧
    (∀ state req p, syncPathOk p = false →
      fsGet ((wsGet (api_sync_files state req).1
          (req.projectId.getD "unknown_project")).getD []) p =
        fsGet ((wsGet state (req.projectId.getD "unknown_project")).getD []) p) := by
  constructor
  · intro state req
    exact ⟨(syncWriteLoop (syncWriteLoop
      (((wsGet state (req.projectId.getD "unknown_project")).getD []), 0) req.files)
      req.binaryFiles).2, rfl⟩
  · intro state req p hp
    show fsGet ((wsGet (wsSet state (req.projectId.getD "unknown_project") _)
        (req.projectId.getD "unknown_project")).getD []) p = _
    rw [wsGet_wsSet_self]
    simp only [Option.getD_some]
    rw [syncWriteLoop_invalid _ _ _ hp, syncWriteLoop_invalid _ _ _ hp]

/-- C2 witness: the amended statement at a concrete traversal path — the
offending path stays absent on both sides. -/
theorem c2_witness :
    fsGet ((wsGet (api_sync_files []
        { projectId := some "w", files := [("../x.tex", "X")], binaryFiles := [] }).1
        "w").getD []) "../x.tex" =
      fsGet ((wsGet ([] : Workspaces) "w").getD []) "../x.tex" :=
  c2_amended_invalid_paths_skipped.2 []
    { projectId := some "w", files := [("../x.tex", "X")], binaryFiles := [] }
    "../x.tex" (by decide)

/-- C8 counterexample: a sync request for a project with no existing
workspace is answered with success and the workspace is created on the
spot — no distinct cache-miss response exists in the handler. -/
theorem c8_counterexample :
    wsGet ([] : Workspaces) "fresh" = none ∧
    (api_sync_files []
      { projectId := some "fresh", files := [("a.tex", "x")], binaryFiles := [] }).2 =
      .ok (syncOkMsg 1 "fresh") ∧
    wsGet (api_sync_files []
      { projectId := some "fresh", files := [("a.tex", "x")], binaryFiles := [] }).1
      "fresh" = some [("a.tex", "x")] := by
  decide

/-- C8 (amended): the sync handler has acquire semantics — after any
request the target project's workspace exists (it is created when
absent), and the handler never reports a cache miss. -/
theorem c8_amended_sync_creates_workspace (state : Workspaces) (req : SyncRequest) :
    (wsGet (api_sync_files state req).1 (req.projectId.getD "unknown_project")).isSome =
      true := by
  show (wsGet (wsSet state (req.projectId.getD "unknown_project") _)
      (req.projectId.getD "unknown_project")).isSome = true
  rw [wsGet_wsSet_self]
  rfl

/-- The spec's end-to-end fileset: a single root main document carrying
the document-class marker, all other request fields defaulted. -/
def reqC9 : CompileRequest :=
  { files := [("main.tex", "\\documentclass x body")], binaryFiles := [], mainFile := none, engine := none }

/-- An empty compile request (used to exercise request defaulting). -/
def reqEmpty : CompileRequest :=
  { files := [], binaryFiles := [], mainFile := none, engine := none }

/-- C9: evaluation at the spec's end-to-end input. The materialization
guard of lines 496-514 tests `(work_dir / filename).is_absolute()` on
the JOINED path — which is always absolute because the temporary work
directory is — so the uploaded `main.tex` is never written: the build
answers 400 "Main file not found" with zero passes executed, instead of
the claimed one-pass success.  (Independently, the pipeline always runs
Pass 2, so even a materialized build would execute two passes, never
one.) -/
theorem c9_failing_input_eval :
    initialFs reqC9 = [] ∧
    (compile_real_logic tcOk reqC9).response =
      .mainFileNotFound (mainNotFoundMsg "main.tex") ∧
    (compile_real_logic tcOk reqC9).trace = [] := by
  decide

/-- C10: in online mode, a positive stored balance loses exactly one
credit before compilation is forwarded and the debit is never reversed
whatever the compile outcome; a zero balance is refused with the
NO_CREDITS response before any compilation work and left untouched; and
a non-negative balance never becomes negative. -/
theorem c10_credit_consumption :
    (∀ (n : Int) (tc : Toolchain) (req : CompileRequest), 0 < n →
      api_compile true (some n) tc req =
        (.compiled (compile_real_logic tc req), some (n - 1))) ∧
    (∀ (tc : Toolchain) (req : CompileRequest),
      api_compile true (some 0) tc req = (.noCredits, some 0)) ∧
    (∀ (stored : Option Int) (tc : Toolchain) (req : CompileRequest) (k : Int),
      0 ≤ stored.getD 0 → (api_compile true stored tc req).2 = some k → 0 ≤ k) := by
  refine ⟨?_, ?_, ?_⟩
  · intro n tc req hn
    simp [api_compile, consume_credit, hn]
  · intro tc req
    simp [api_compile, consume_credit]
  · intro stored tc req k h0 hk
    rcases stored with _ | n
    · simp [api_compile, consume_credit] at hk
      omega
    · simp only [Option.getD_some] at h0
      by_cases hn : n > 0
      · simp [api_compile, consume_credit, hn] at hk
        omega
      · simp [api_compile, consume_credit, hn] at hk
        omega

/-- C10 witness: a concrete balance of 5 drops to 4 and compilation is
forwarded, whatever the build then does. -/
theorem c10_witness :
    api_compile true (some 5) tcOk reqEmpty =
      (.compiled (compile_real_logic tcOk reqEmpty), some 4) :=
  c10_credit_consumption.1 5 tcOk reqEmpty (by decide)
